import Mathlib

set_option autoImplicit false

/-!
rivet: the logging package `utils/log`.

A shallow embedding of `src/utils/log/log.go`.

* Package state (the package variables, the `sync.Once` gate and the objects
  reachable through pointers) is an explicit `log.World` value that every
  function takes and returns.
* A `*Logger` is an address into `World.loggers`, a `*lumberjack.Logger` (the
  rotating file sink) an address into `World.hooks`; `none` is the nil pointer.
  A fresh object is appended to its heap, so its address is the heap length.
* A `*Config` is `none` (nil) or the record it points to: no function of the
  package writes through a `*Config`.
* A nil pointer dereference (a Go panic) is the result `none`; so is the
  dereference of an address outside its heap, which no Go program can form.
* The receiver `log *Logger` of a method is the argument `recv`.
* The libraries zap and lumberjack are represented by the constructor calls the
  package makes: a logger is the core and the options it was built from. What
  such a logger writes for a logging call is given by `zap.write`, which follows
  zap's `Logger.check` and `jsonEncoder.EncodeEntry`; a record is the list of the
  members of its JSON object, in the order written.
-/

/-- An address in one of the heaps of `log.World`. -/
abbrev Ptr := Nat

namespace strings

/-- Go `strings.Join(elems, sep)`. -/
def Join (elems : List String) (sep : String) : String :=
  sep.intercalate elems

end strings

namespace env

/-- Modelled from the spec: the package `utils/env` is not among the sources.
The process environment: the variables that are set, each with its value. -/
abbrev Environ := List (String × String)

/-- Modelled from the spec: `env.GetEnvDefault` is not among the sources; it
"reads a base log directory from configuration (falling back to a default path
if unset)". -/
def GetEnvDefault (e : Environ) (envName defaultValue : String) : String :=
  match e.lookup envName with
  | some v => v
  | none => defaultValue

end env

namespace lumberjack

/-- The rotating file sink `lumberjack.Logger`, with the fields the package sets
(`LocalTime` keeps its zero value). -/
structure Logger where
  Filename : String
  MaxSize : Int
  MaxBackups : Int
  MaxAge : Int
  Compress : Bool
  LocalTime : Bool := false
deriving DecidableEq, Repr

end lumberjack

namespace time

/-- A Go `time.Time` as `Format` sees it: the wall clock reading in the time's
location, and the offset of that location in seconds east of UTC. `time.Now()`
is in the local zone of the process. -/
structure Time where
  Year : Nat
  Month : Nat
  Day : Nat
  Hour : Nat
  Minute : Nat
  Second : Nat
  Nanosecond : Nat
  Offset : Int
deriving DecidableEq, Repr

/-- Go `appendInt(b, x, width)` for `x >= 0`: decimal, zero-padded to `width`. -/
def appendInt (x width : Nat) : String :=
  let s := toString x
  String.mk (List.replicate (width - s.length) '0') ++ s

/-- The zone element of a layout, `Z0700` or with `colon` `Z07:00`: the letter
`Z` at offset 0, otherwise the sign, the hours and the minutes of the offset. -/
def formatZone (offset : Int) (colon : Bool) : String :=
  if offset = 0 then "Z"
  else
    let zone := Int.tdiv offset 60
    let sign := if zone < 0 then "-" else "+"
    let zone := zone.natAbs
    sign ++ appendInt (zone / 60) 2 ++ (if colon then ":" else "") ++ appendInt (zone % 60) 2

/-- The date and the time of day `2006-01-02T15:04:05` of a layout. -/
def Time.formatClock (t : Time) : String :=
  appendInt t.Year 4 ++ "-" ++ appendInt t.Month 2 ++ "-" ++ appendInt t.Day 2 ++ "T" ++
    appendInt t.Hour 2 ++ ":" ++ appendInt t.Minute 2 ++ ":" ++ appendInt t.Second 2

/-- Go `t.Format("2006-01-02T15:04:05.000Z0700")`: the wall clock of `t` in its
own location, with milliseconds, then the zone. -/
def Time.FormatISO8601 (t : Time) : String :=
  t.formatClock ++ "." ++ appendInt (t.Nanosecond / 1000000) 3 ++ formatZone t.Offset false

/-- Go `t.Format(time.RFC3339)`, the layout `2006-01-02T15:04:05Z07:00`. -/
def Time.FormatRFC3339 (t : Time) : String :=
  t.formatClock ++ formatZone t.Offset true

end time

namespace zapcore

/-- Go `zapcore.Level`, a signed integer. -/
abbrev Level := Int

def DebugLevel : Level := -1

def InfoLevel : Level := 0

def DefaultLineEnding : String := "\n"

def FatalLevel : Level := 5

/-- The level encoders of zapcore that write the plain level name. -/
inductive LevelEncoder
  | LowercaseLevelEncoder
  | CapitalLevelEncoder
deriving DecidableEq, Repr

/-- The time encoders of zapcore that format the time with a layout. -/
inductive TimeEncoder
  | ISO8601TimeEncoder
  | RFC3339TimeEncoder
deriving DecidableEq, Repr

/-- The duration encoders of zapcore. No value of this development is a
duration, so they are never run. -/
inductive DurationEncoder
  | SecondsDurationEncoder
  | NanosDurationEncoder
  | StringDurationEncoder
deriving DecidableEq, Repr

inductive CallerEncoder
  | FullCallerEncoder
  | ShortCallerEncoder
deriving DecidableEq, Repr

/-- The fields of `zapcore.EncoderConfig` that `newCore` sets. -/
structure EncoderConfig where
  TimeKey : String
  LevelKey : String
  NameKey : String
  CallerKey : String
  MessageKey : String
  StacktraceKey : String
  LineEnding : String
  EncodeLevel : LevelEncoder
  EncodeTime : TimeEncoder
  EncodeDuration : DurationEncoder
  EncodeCaller : CallerEncoder
deriving DecidableEq, Repr

/-- A `zapcore.Encoder` as built by `zapcore.NewJSONEncoder(cfg)`. -/
inductive Encoder
  | NewJSONEncoder (cfg : EncoderConfig)
deriving DecidableEq, Repr

/-- The `io.Writer` values the package writes to: `os.Stdout`, or a rotating
sink given by its address. -/
inductive Writer
  | osStdout
  | hook (p : Ptr)
deriving DecidableEq, Repr

/-- A `zapcore.WriteSyncer`: the writers a record is sent to, in order. -/
abbrev WriteSyncer := List Writer

def AddSync (w : Writer) : WriteSyncer := [w]

def NewMultiWriteSyncer (ws : List WriteSyncer) : WriteSyncer := ws.flatten

/-- A `zapcore.Core` as built by `zapcore.NewCore(enc, ws, enab)`. -/
structure Core where
  enc : Encoder
  out : WriteSyncer
  enab : Level
deriving DecidableEq, Repr

def NewCore (enc : Encoder) (ws : WriteSyncer) (enab : Level) : Core :=
  ⟨enc, ws, enab⟩

end zapcore

namespace zap

/-- A structured field `zap.String(key, val)`. -/
structure Field where
  Key : String
  Val : String
deriving DecidableEq, Repr

/-- The logger options the package uses. -/
inductive LoggerOption
  | AddCaller
  | Development
  | Fields (fs : List Field)
deriving DecidableEq, Repr

/-- A `*zap.Logger`, given by the call that built it. -/
inductive Logger
  | NewDevelopment
  | New (core : zapcore.Core) (opts : List LoggerOption)
deriving DecidableEq, Repr

/-- `zap.NewAtomicLevel()`: an atomic level, initially `InfoLevel`. -/
def NewAtomicLevel : zapcore.Level := zapcore.InfoLevel

/-- `atomicLevel.SetLevel(l)`. -/
def SetLevel (_atomicLevel : zapcore.Level) (l : zapcore.Level) : zapcore.Level := l

end zap

namespace zapcore

/-- Go `zapcore.EntryCaller`: the call site of a logging call. -/
structure EntryCaller where
  Defined : Bool
  File : String
  Line : Nat
deriving DecidableEq, Repr

/-- Go `zapcore.Entry`. -/
structure Entry where
  Level : Level
  Time : time.Time
  LoggerName : String
  Message : String
  Caller : EntryCaller
  Stack : String
deriving DecidableEq, Repr

/-- The JSON object of one log record: its members, in the order written. Every
value here is a JSON string. -/
abbrev Record := List (String × String)

/-- Go `Level.String()`: the lowercase name of the level. -/
def Level.name (l : Level) : String :=
  if l = -1 then "debug"
  else if l = 0 then "info"
  else if l = 1 then "warn"
  else if l = 2 then "error"
  else if l = 3 then "dpanic"
  else if l = 4 then "panic"
  else if l = 5 then "fatal"
  else "Level(" ++ toString l ++ ")"

/-- Go `Level.CapitalString()`: the name of the level in capitals. -/
def Level.capitalName (l : Level) : String :=
  if l = -1 then "DEBUG"
  else if l = 0 then "INFO"
  else if l = 1 then "WARN"
  else if l = 2 then "ERROR"
  else if l = 3 then "DPANIC"
  else if l = 4 then "PANIC"
  else if l = 5 then "FATAL"
  else "LEVEL(" ++ toString l ++ ")"

/-- What a level encoder appends. -/
def LevelEncoder.encode : LevelEncoder → Level → String
  | LevelEncoder.LowercaseLevelEncoder, l => Level.name l
  | LevelEncoder.CapitalLevelEncoder, l => Level.capitalName l

/-- What a time encoder appends: the time formatted with the encoder's layout,
in the location the time carries. -/
def TimeEncoder.encode : TimeEncoder → time.Time → String
  | TimeEncoder.ISO8601TimeEncoder, t => t.FormatISO8601
  | TimeEncoder.RFC3339TimeEncoder, t => t.FormatRFC3339

/-- Go `EntryCaller.FullPath()`. -/
def EntryCaller.FullPath (c : EntryCaller) : String :=
  if c.Defined then c.File ++ ":" ++ toString c.Line else "undefined"

/-- Go `EntryCaller.TrimmedPath()`: the last directory and the file name. -/
def EntryCaller.TrimmedPath (c : EntryCaller) : String :=
  if c.Defined then
    match (c.File.splitOn "/").reverse with
    | file :: dir :: _ :: _ => dir ++ "/" ++ file ++ ":" ++ toString c.Line
    | _ => c.FullPath
  else "undefined"

/-- What a caller encoder appends. -/
def CallerEncoder.encode : CallerEncoder → EntryCaller → String
  | CallerEncoder.FullCallerEncoder, c => c.FullPath
  | CallerEncoder.ShortCallerEncoder, c => c.TrimmedPath

/-- Go `jsonEncoder.EncodeEntry(ent, fields)`, `context` being the fields added
to the encoder before by `Core.With`: level, time, the logger name when there is
one, the caller when it is defined, the message, the context, the fields, and
the stack trace when there is one; a member whose key is empty is left out. -/
def Encoder.EncodeEntry : Encoder → List zap.Field → Entry → List zap.Field → Record
  | Encoder.NewJSONEncoder cfg, context, ent, fields =>
    (if cfg.LevelKey ≠ "" then [(cfg.LevelKey, cfg.EncodeLevel.encode ent.Level)] else []) ++
    (if cfg.TimeKey ≠ "" then [(cfg.TimeKey, cfg.EncodeTime.encode ent.Time)] else []) ++
    (if ent.LoggerName ≠ "" ∧ cfg.NameKey ≠ "" then [(cfg.NameKey, ent.LoggerName)] else []) ++
    (if ent.Caller.Defined = true ∧ cfg.CallerKey ≠ "" then
      [(cfg.CallerKey, cfg.EncodeCaller.encode ent.Caller)] else []) ++
    (if cfg.MessageKey ≠ "" then [(cfg.MessageKey, ent.Message)] else []) ++
    context.map (fun f => (f.Key, f.Val)) ++
    fields.map (fun f => (f.Key, f.Val)) ++
    (if ent.Stack ≠ "" ∧ cfg.StacktraceKey ≠ "" then [(cfg.StacktraceKey, ent.Stack)] else [])

end zapcore

namespace zap

/-- The fields of a `zap.Logger` that logging reads: its name, its core with the
context fields given to `core.With`, and the settings made by options. -/
structure Settings where
  core : zapcore.Core
  context : List Field
  name : String
  development : Bool
  addCaller : Bool
  addStack : zapcore.Level
deriving DecidableEq, Repr

/-- What an option does to the logger it is applied to. -/
def LoggerOption.apply (log : Settings) : LoggerOption → Settings
  | LoggerOption.AddCaller => { log with addCaller := true }
  | LoggerOption.Development => { log with development := true }
  | LoggerOption.Fields fs => { log with context := log.context ++ fs }

/-- Go `zap.New(core, options...)`: no name, no caller, stack traces from the
level above `FatalLevel` on, then the options in order. -/
def New (core : zapcore.Core) (options : List LoggerOption) : Settings :=
  options.foldl LoggerOption.apply
    { core := core, context := [], name := "", development := false, addCaller := false,
      addStack := zapcore.FatalLevel + 1 }

/-- The record the logger `zap.New(core, options...)` writes to its writers for a
logging call at level `lvl` with message `msg` and fields `fields`, made at
time `now` (the `time.Now()` of the call) from the call site `frame` with the
call stack `stack`; `none` when the core's level does not let `lvl` through.
Follows `Logger.check`, `ioCore.Check` and `ioCore.Write`. -/
def write (core : zapcore.Core) (options : List LoggerOption) (lvl : zapcore.Level)
    (msg : String) (fields : List Field) (now : time.Time) (frame : zapcore.EntryCaller)
    (stack : String) : Option zapcore.Record :=
  let log := New core options
  if lvl < log.core.enab then none
  else
    let ent : zapcore.Entry :=
      { LoggerName := log.name
        Time := now
        Level := lvl
        Message := msg
        Caller := if log.addCaller then frame else ⟨false, "", 0⟩
        Stack := if log.addStack ≤ lvl then stack else "" }
    some (log.core.enc.EncodeEntry log.context ent fields)

end zap

namespace log

/-- Modelled from the spec: the declaration of `Config` is not among the
sources; these are the fields `GetLogInstance` writes and `New` reads, the
spec's RotationPolicy (`filePath`, `level`, `maxSizeMB`, `maxBackups`,
`maxAgeDays`, `compress`). -/
structure Config where
  FilePath : String
  Level : zapcore.Level
  MaxSize : Int
  MaxBackups : Int
  MaxAge : Int
  Compress : Bool
deriving DecidableEq, Repr

/-- Go `type Logger struct { Config *Config }`. -/
structure Logger where
  Config : Option Config
deriving DecidableEq, Repr

/-- The package state. -/
structure World where
  /-- the process environment read by `env.GetEnvDefault` -/
  environ : env.Environ
  /-- heap of `Logger` objects -/
  loggers : List Logger
  /-- heap of rotating sinks -/
  hooks : List lumberjack.Logger
  /-- `var once sync.Once`: has the function passed to `Do` been run -/
  once : Bool
  /-- `var instance *Logger` -/
  instance_ : Option Ptr
  Common : zap.Logger
  Discovery : zap.Logger
  Examples : zap.Logger
  Rivet : zap.Logger
  Server : zap.Logger
  Bow : zap.Logger
  Shunt : zap.Logger
  Trans : zap.Logger
  Scheduled : zap.Logger
deriving DecidableEq, Repr

/-- Address of the package variable `Log Logger`. -/
def LogAddr : Ptr := 0

/-- The package state after package initialisation: `Log` is the zero `Logger`
(nil `Config`), `instance` is nil, `once` has not run, and the nine channel
variables hold `zap.NewDevelopment()` loggers. -/
def World.init (e : env.Environ) : World where
  environ := e
  loggers := [⟨none⟩]
  hooks := []
  once := false
  instance_ := none
  Common := zap.Logger.NewDevelopment
  Discovery := zap.Logger.NewDevelopment
  Examples := zap.Logger.NewDevelopment
  Rivet := zap.Logger.NewDevelopment
  Server := zap.Logger.NewDevelopment
  Bow := zap.Logger.NewDevelopment
  Shunt := zap.Logger.NewDevelopment
  Trans := zap.Logger.NewDevelopment
  Scheduled := zap.Logger.NewDevelopment

/-- Go `newCore`: allocates the sink `hook`, and builds a core that writes JSON
records to the console and to `&hook`. -/
def newCore (w : World) (filePath : String) (level : zapcore.Level)
    (maxSize maxBackups maxAge : Int) (compress : Bool) : zapcore.Core × World :=
  let hook : lumberjack.Logger :=
    { Filename := filePath
      MaxSize := maxSize
      MaxBackups := maxBackups
      MaxAge := maxAge
      Compress := compress }
  let hookAddr : Ptr := w.hooks.length
  let w1 : World := { w with hooks := w.hooks ++ [hook] }
  let encoderConfig : zapcore.EncoderConfig :=
    { TimeKey := "time"
      LevelKey := "level"
      NameKey := "logger"
      CallerKey := "caller"
      MessageKey := "msg"
      StacktraceKey := "stacktrace"
      LineEnding := zapcore.DefaultLineEnding
      EncodeLevel := zapcore.LevelEncoder.LowercaseLevelEncoder
      EncodeTime := zapcore.TimeEncoder.ISO8601TimeEncoder
      EncodeDuration := zapcore.DurationEncoder.SecondsDurationEncoder
      EncodeCaller := zapcore.CallerEncoder.FullCallerEncoder }
  let atomicLevel := zap.NewAtomicLevel
  let atomicLevel := zap.SetLevel atomicLevel level
  (zapcore.NewCore
      (zapcore.Encoder.NewJSONEncoder encoderConfig)
      (zapcore.NewMultiWriteSyncer
        [zapcore.AddSync zapcore.Writer.osStdout, zapcore.AddSync (zapcore.Writer.hook hookAddr)])
      atomicLevel,
    w1)

/-- Go `(log *Logger) Conf(config *Config)`: `log.Config = config`. -/
def Logger.Conf (w : World) (recv : Option Ptr) (config : Option log.Config) : Option World :=
  match recv with
  | none => none
  | some l =>
    match w.loggers[l]? with
    | none => none
    | some _ => some { w with loggers := w.loggers.set l ⟨config⟩ }

/-- Go `(log *Logger) New(filePath, serviceName)`: reads the level and the
rotation parameters through `log.Config`. -/
def Logger.New (w : World) (recv : Option Ptr) (filePath serviceName : String) :
    Option (zap.Logger × World) :=
  match recv with
  | none => none
  | some l =>
    match w.loggers[l]? with
    | none => none
    | some self =>
      match self.Config with
      | none => none
      | some config =>
        let (core, w1) := newCore w filePath config.Level config.MaxSize config.MaxBackups
          config.MaxAge config.Compress
        let caller := zap.LoggerOption.AddCaller
        let development := zap.LoggerOption.Development
        let filed := zap.LoggerOption.Fields [⟨"serviceName", serviceName⟩]
        some (zap.Logger.New core [caller, development, filed], w1)

/-- Go `(log *Logger) NewCustom(...)`: every parameter of `newCore` is the
caller's; the receiver is never dereferenced, and no parameter is checked. -/
def Logger.NewCustom (w : World) (_recv : Option Ptr) (filePath : String) (level : zapcore.Level)
    (maxSize maxBackups maxAge : Int) (compress : Bool) (serviceName : String) :
    Option (zap.Logger × World) :=
  let (core, w1) := newCore w filePath level maxSize maxBackups maxAge compress
  let caller := zap.LoggerOption.AddCaller
  let development := zap.LoggerOption.Development
  let filed := zap.LoggerOption.Fields [⟨"serviceName", serviceName⟩]
  some (zap.Logger.New core [caller, development, filed], w1)

/-- The function `GetLogInstance` passes to `once.Do`. `LogPath` is the constant
`env.LogPath`, declared outside the sources. -/
def GetLogInstance.init (LogPath : String) (w : World) : Option World := do
  let logPath := env.GetEnvDefault w.environ LogPath "./logs"
  let w : World :=
    { w with
      loggers := w.loggers ++ [⟨some
        { FilePath := strings.Join [logPath, "rivet.log"] "/"
          Level := zapcore.DebugLevel
          MaxSize := 128
          MaxBackups := 30
          MaxAge := 30
          Compress := true }⟩]
      instance_ := some w.loggers.length }
  let (z, w) ← Logger.New w w.instance_ (strings.Join [logPath, "common.log"] "/") "common"
  let w : World := { w with Common := z }
  let (z, w) ← Logger.New w w.instance_ (strings.Join [logPath, "discovery.log"] "/") "discovery"
  let w : World := { w with Discovery := z }
  let (z, w) ← Logger.New w w.instance_ (strings.Join [logPath, "examples.log"] "/") "examples"
  let w : World := { w with Examples := z }
  let (z, w) ← Logger.New w w.instance_ (strings.Join [logPath, "rivet.log"] "/") "rivet"
  let w : World := { w with Rivet := z }
  let (z, w) ← Logger.New w w.instance_ (strings.Join [logPath, "server.log"] "/") "server"
  let w : World := { w with Server := z }
  let (z, w) ← Logger.New w w.instance_ (strings.Join [logPath, "bow.log"] "/") "bow"
  let w : World := { w with Bow := z }
  let (z, w) ← Logger.New w w.instance_ (strings.Join [logPath, "shunt.log"] "/") "shunt"
  let w : World := { w with Shunt := z }
  let (z, w) ← Logger.New w w.instance_ (strings.Join [logPath, "trans.log"] "/") "trans"
  let w : World := { w with Trans := z }
  let (z, w) ← Logger.New w w.instance_ (strings.Join [logPath, "scheduled.log"] "/") "scheduled"
  let w : World := { w with Scheduled := z }
  pure w

/-- Go `GetLogInstance`: `once.Do` runs the initialisation unless it has run
before, then `instance` is returned. -/
def GetLogInstance (LogPath : String) (w : World) : Option (Option Ptr × World) :=
  if w.once then
    some (w.instance_, w)
  else
    match GetLogInstance.init LogPath w with
    | none => none
    | some w1 =>
      let w2 : World := { w1 with once := true }
      some (w2.instance_, w2)

/-- `GetLogInstance` called `n` times in a row: the pointers returned, in order,
and the final state. -/
def GetLogInstance.calls (LogPath : String) : Nat → World → Option (List (Option Ptr) × World)
  | 0, w => some ([], w)
  | n + 1, w =>
    match GetLogInstance LogPath w with
    | none => none
    | some (p, w1) =>
      match GetLogInstance.calls LogPath n w1 with
      | none => none
      | some (ps, w2) => some (p :: ps, w2)

/-- A call of the package's interface made by the host program; `recv` is the
receiver of a method call. -/
inductive Op
  | GetLogInstance
  | Conf (recv : Option Ptr) (config : Option Config)
  | New (recv : Option Ptr) (filePath serviceName : String)
  | NewCustom (recv : Option Ptr) (filePath : String) (level : zapcore.Level)
      (maxSize maxBackups maxAge : Int) (compress : Bool) (serviceName : String)
deriving DecidableEq, Repr

/-- The state after one call; `none` when the call panics. -/
def Op.step (LogPath : String) (w : World) : Op → Option World
  | Op.GetLogInstance => (log.GetLogInstance LogPath w).map Prod.snd
  | Op.Conf recv config => Logger.Conf w recv config
  | Op.New recv filePath serviceName => (Logger.New w recv filePath serviceName).map Prod.snd
  | Op.NewCustom recv filePath level maxSize maxBackups maxAge compress serviceName =>
    (Logger.NewCustom w recv filePath level maxSize maxBackups maxAge compress serviceName).map
      Prod.snd

/-- The state after a sequence of calls; `none` when one of them panics. -/
def Op.run (LogPath : String) : World → List Op → Option World
  | w, [] => some w
  | w, op :: ops =>
    match Op.step LogPath w op with
    | none => none
    | some w1 => Op.run LogPath w1 ops

/-- The call is not a `Conf`, or it is a `Conf` whose config is non-nil and
satisfies `P`. -/
def Op.confOk (P : Config → Prop) : Op → Prop
  | Op.Conf _ (some c) => P c
  | Op.Conf _ none => False
  | _ => True

/-- The registry's default policy: the `Config` of the `Logger` that `instance`
points to. -/
def World.defaultPolicy (w : World) : Option Config :=
  match w.instance_ with
  | none => none
  | some p =>
    match w.loggers[p]? with
    | none => none
    | some l => l.Config

/-- The encoder configuration written in `newCore`. -/
def recordShape : zapcore.EncoderConfig :=
  { TimeKey := "time"
    LevelKey := "level"
    NameKey := "logger"
    CallerKey := "caller"
    MessageKey := "msg"
    StacktraceKey := "stacktrace"
    LineEnding := "\n"
    EncodeLevel := zapcore.LevelEncoder.LowercaseLevelEncoder
    EncodeTime := zapcore.TimeEncoder.ISO8601TimeEncoder
    EncodeDuration := zapcore.DurationEncoder.SecondsDurationEncoder
    EncodeCaller := zapcore.CallerEncoder.FullCallerEncoder }

/-- The logger of a channel whose sink is at address `p`: JSON records of the
fixed shape, written to the console and to the sink, with the field
`serviceName`. -/
def channel (p : Ptr) (level : zapcore.Level) (serviceName : String) : zap.Logger :=
  zap.Logger.New
    ⟨zapcore.Encoder.NewJSONEncoder recordShape,
      [zapcore.Writer.osStdout, zapcore.Writer.hook p], level⟩
    [zap.LoggerOption.AddCaller, zap.LoggerOption.Development,
      zap.LoggerOption.Fields [⟨"serviceName", serviceName⟩]]

/-- The nine well-known channel names, in the order `GetLogInstance` builds them. -/
def wellKnown : List String :=
  ["common", "discovery", "examples", "rivet", "server", "bow", "shunt", "trans", "scheduled"]

/-- The nine channel variables of a state, in the order of `wellKnown`. -/
def World.channels (w : World) : List zap.Logger :=
  [w.Common, w.Discovery, w.Examples, w.Rivet, w.Server, w.Bow, w.Shunt, w.Trans, w.Scheduled]

/-- The base log directory `GetLogInstance` reads. -/
def World.logPath (LogPath : String) (w : World) : String :=
  env.GetEnvDefault w.environ LogPath "./logs"

/-- The default policy `GetLogInstance` installs for the base directory `d`. -/
def defaultConfig (d : String) : Config :=
  { FilePath := d ++ "/" ++ "rivet.log"
    Level := zapcore.DebugLevel
    MaxSize := 128
    MaxBackups := 30
    MaxAge := 30
    Compress := true }

/-- The sink of the well-known channel `n` under the base directory `d`. -/
def channelSink (d n : String) : lumberjack.Logger :=
  { Filename := d ++ "/" ++ n ++ ".log"
    MaxSize := 128
    MaxBackups := 30
    MaxAge := 30
    Compress := true }

/-- The addresses of the rotating sinks a logger writes to. -/
def sinksOf : zap.Logger → List Ptr
  | zap.Logger.NewDevelopment => []
  | zap.Logger.New core _ =>
    core.out.filterMap fun x =>
      match x with
      | zapcore.Writer.hook p => some p
      | zapcore.Writer.osStdout => none

/-- The files a logger writes to: the file names of its rotating sinks. -/
def World.filesOf (w : World) (z : zap.Logger) : List String :=
  (sinksOf z).filterMap fun p => (w.hooks[p]?).map lumberjack.Logger.Filename

/-- The state `GetLogInstance.init` produces from `w`. -/
def World.initialised (LogPath : String) (w : World) : World :=
  { w with
    loggers := w.loggers ++ [⟨some (defaultConfig (w.logPath LogPath))⟩]
    instance_ := some w.loggers.length
    hooks := w.hooks ++ wellKnown.map (channelSink (w.logPath LogPath))
    Common := channel w.hooks.length zapcore.DebugLevel "common"
    Discovery := channel (w.hooks.length + 1) zapcore.DebugLevel "discovery"
    Examples := channel (w.hooks.length + 2) zapcore.DebugLevel "examples"
    Rivet := channel (w.hooks.length + 3) zapcore.DebugLevel "rivet"
    Server := channel (w.hooks.length + 4) zapcore.DebugLevel "server"
    Bow := channel (w.hooks.length + 5) zapcore.DebugLevel "bow"
    Shunt := channel (w.hooks.length + 6) zapcore.DebugLevel "shunt"
    Trans := channel (w.hooks.length + 7) zapcore.DebugLevel "trans"
    Scheduled := channel (w.hooks.length + 8) zapcore.DebugLevel "scheduled" }

/-- The state after the first `GetLogInstance()` of a process that starts with
an empty environment, `env.LogPath` being "LOG_PATH": `instance` is the
`Logger` at address 1, and nine sinks exist. -/
def World.started : World :=
  match GetLogInstance "LOG_PATH" (World.init []) with
  | some (_, w) => w
  | none => World.init []

/-- The policy of the spec's rotation scenario: 1 MB, two backups, no
compression. -/
def Config.small : Config :=
  { FilePath := "./logs/rivet.log"
    Level := zapcore.InfoLevel
    MaxSize := 1
    MaxBackups := 2
    MaxAge := 0
    Compress := false }

/-- The initialisation has run, and `instance` points to a `Logger` whose
`Config` is non-nil and satisfies `P`. -/
def World.policyInv (P : Config → Prop) (w : World) : Prop :=
  w.once = true ∧ ∃ p c, w.instance_ = some p ∧ w.loggers[p]? = some ⟨some c⟩ ∧ P c

end log

/-! ## Auxiliary lemmas -/

theorem strings.Join_pair (a b sep : String) : strings.Join [a, b] sep = a ++ sep ++ b := by
  simp [strings.Join, String.intercalate, String.intercalate.go]

namespace log

theorem newCore_eq (w : World) (filePath : String) (level : zapcore.Level)
    (maxSize maxBackups maxAge : Int) (compress : Bool) :
    newCore w filePath level maxSize maxBackups maxAge compress =
      (⟨zapcore.Encoder.NewJSONEncoder recordShape,
          [zapcore.Writer.osStdout, zapcore.Writer.hook w.hooks.length], level⟩,
        { w with hooks := w.hooks ++
            [{ Filename := filePath, MaxSize := maxSize, MaxBackups := maxBackups,
               MaxAge := maxAge, Compress := compress }] }) := by
  simp [newCore, recordShape, zapcore.NewCore, zapcore.NewMultiWriteSyncer, zapcore.AddSync,
    zapcore.DefaultLineEnding, zap.SetLevel]

theorem NewCustom_eq (w : World) (recv : Option Ptr) (filePath : String) (level : zapcore.Level)
    (maxSize maxBackups maxAge : Int) (compress : Bool) (serviceName : String) :
    Logger.NewCustom w recv filePath level maxSize maxBackups maxAge compress serviceName =
      some (channel w.hooks.length level serviceName,
        { w with hooks := w.hooks ++
            [{ Filename := filePath, MaxSize := maxSize, MaxBackups := maxBackups,
               MaxAge := maxAge, Compress := compress }] }) := by
  simp [Logger.NewCustom, newCore_eq, channel]

theorem New_eq (w : World) (l : Ptr) (c : Config) (filePath serviceName : String)
    (h : w.loggers[l]? = some ⟨some c⟩) :
    Logger.New w (some l) filePath serviceName =
      some (channel w.hooks.length c.Level serviceName,
        { w with hooks := w.hooks ++
            [{ Filename := filePath, MaxSize := c.MaxSize, MaxBackups := c.MaxBackups,
               MaxAge := c.MaxAge, Compress := c.Compress }] }) := by
  simp [Logger.New, h, newCore_eq, channel]

theorem init_eq (LogPath : String) (w : World) :
    GetLogInstance.init LogPath w = some (w.initialised LogPath) := by
  have hs : ∀ d n m : String, d ++ "/" ++ (n ++ m) = d ++ "/" ++ n ++ m := by
    intro d n m; simp [String.append_assoc]
  simp [GetLogInstance.init, New_eq, strings.Join_pair, World.logPath, wellKnown, channelSink,
    defaultConfig, Nat.add_assoc, World.initialised]
  refine ⟨?_, ?_, ?_, ?_, ?_, ?_, ?_, ?_, ?_⟩ <;> rw [← hs] <;> congr 1

theorem GetLogInstance_first (LogPath : String) (w : World) (hw : w.once = false) :
    GetLogInstance LogPath w =
      some (some w.loggers.length, { w.initialised LogPath with once := true }) := by
  simp [GetLogInstance, hw, init_eq, World.initialised]

theorem GetLogInstance_again (LogPath : String) (w : World) (hw : w.once = true) :
    GetLogInstance LogPath w = some (w.instance_, w) := by
  simp [GetLogInstance, hw]

theorem calls_again (LogPath : String) (w : World) (hw : w.once = true) (n : Nat) :
    GetLogInstance.calls LogPath n w = some (List.replicate n w.instance_, w) := by
  induction n with
  | zero => rfl
  | succ n ih => simp [GetLogInstance.calls, GetLogInstance_again, hw, ih, List.replicate_succ]

theorem getElem?_append_add {α : Type} (xs ys : List α) (i : Nat) :
    (xs ++ ys)[xs.length + i]? = ys[i]? := by
  rw [List.getElem?_append_right (Nat.le_add_right _ _)]
  simp

theorem getElem?_append_length {α : Type} (xs ys : List α) :
    (xs ++ ys)[xs.length]? = ys[0]? := by
  simpa using getElem?_append_add xs ys 0

theorem sinksOf_channel (p : Ptr) (level : zapcore.Level) (n : String) :
    sinksOf (channel p level n) = [p] := by
  simp [sinksOf, channel]

theorem filesOf_channel (w : World) (p : Ptr) (level : zapcore.Level) (n : String)
    (h : lumberjack.Logger) (hp : w.hooks[p]? = some h) :
    w.filesOf (channel p level n) = [h.Filename] := by
  simp [World.filesOf, sinksOf_channel, hp]

theorem path_inj (d n m : String) (h : d ++ "/" ++ n ++ ".log" = d ++ "/" ++ m ++ ".log") :
    n = m := by
  have h1 := congrArg String.data h
  simp only [String.data_append, List.append_assoc] at h1
  have h2 := List.append_cancel_left (List.append_cancel_left h1)
  exact String.ext (List.append_cancel_right h2)

theorem paths_nodup (d : String) :
    (wellKnown.map fun n => d ++ "/" ++ n ++ ".log").Nodup :=
  List.Nodup.map (fun n m h => path_inj d n m h) (by decide)

theorem sinks_initialised (LogPath : String) (w : World) :
    (w.initialised LogPath).channels.map sinksOf =
      [[w.hooks.length], [w.hooks.length + 1], [w.hooks.length + 2], [w.hooks.length + 3],
        [w.hooks.length + 4], [w.hooks.length + 5], [w.hooks.length + 6], [w.hooks.length + 7],
        [w.hooks.length + 8]] := by
  simp [World.initialised, World.channels, sinksOf_channel]

theorem files_initialised (LogPath : String) (w : World) :
    (w.initialised LogPath).channels.map (w.initialised LogPath).filesOf =
      wellKnown.map (fun n => [w.logPath LogPath ++ "/" ++ n ++ ".log"]) := by
  simp only [World.initialised, World.channels, List.map_cons, List.map_nil]
  rw [filesOf_channel _ _ _ _ _ (getElem?_append_length _ _),
    filesOf_channel _ _ _ _ _ (getElem?_append_add _ _ 1),
    filesOf_channel _ _ _ _ _ (getElem?_append_add _ _ 2),
    filesOf_channel _ _ _ _ _ (getElem?_append_add _ _ 3),
    filesOf_channel _ _ _ _ _ (getElem?_append_add _ _ 4),
    filesOf_channel _ _ _ _ _ (getElem?_append_add _ _ 5),
    filesOf_channel _ _ _ _ _ (getElem?_append_add _ _ 6),
    filesOf_channel _ _ _ _ _ (getElem?_append_add _ _ 7),
    filesOf_channel _ _ _ _ _ (getElem?_append_add _ _ 8)]
  simp [wellKnown, channelSink]

theorem New_frame (w w1 : World) (recv : Option Ptr) (filePath serviceName : String)
    (z : zap.Logger) (h : Logger.New w recv filePath serviceName = some (z, w1)) :
    ∃ k, w1 = { w with hooks := w.hooks ++ [k] } := by
  unfold Logger.New at h
  split at h
  · exact absurd h (by simp)
  · split at h
    · exact absurd h (by simp)
    · split at h
      · exact absurd h (by simp)
      · simp only [newCore_eq, Option.some.injEq, Prod.mk.injEq] at h
        exact ⟨_, h.2.symm⟩

theorem Conf_frame (w w1 : World) (recv : Option Ptr) (config : Option Config)
    (h : Logger.Conf w recv config = some w1) :
    ∃ l, recv = some l ∧ l < w.loggers.length ∧
      w1 = { w with loggers := w.loggers.set l ⟨config⟩ } := by
  unfold Logger.Conf at h
  split at h
  · exact absurd h (by simp)
  · rename_i l
    split at h
    · exact absurd h (by simp)
    · rename_i x hx
      have hl : l < w.loggers.length := by
        rcases Nat.lt_or_ge l w.loggers.length with h1 | h1
        · exact h1
        · rw [List.getElem?_eq_none h1] at hx
          exact absurd hx (by simp)
      simp only [Option.some.injEq] at h
      exact ⟨l, rfl, hl, h.symm⟩

theorem policyInv_first (P : Config → Prop) (LogPath : String) (w : World)
    (hP : P (defaultConfig (w.logPath LogPath))) :
    World.policyInv P { w.initialised LogPath with once := true } := by
  refine ⟨rfl, w.loggers.length, defaultConfig (w.logPath LogPath), rfl, ?_, hP⟩
  simp [World.initialised]

theorem policyInv_step (P : Config → Prop) (LogPath : String) (w w1 : World) (op : Op)
    (hinv : w.policyInv P) (hop : op.confOk P) (h : Op.step LogPath w op = some w1) :
    w1.policyInv P := by
  obtain ⟨honce, p, c, hp, hc, hPc⟩ := hinv
  cases op with
  | GetLogInstance =>
    simp only [Op.step, GetLogInstance_again LogPath w honce, Option.map_some',
      Option.some.injEq] at h
    subst h
    exact ⟨honce, p, c, hp, hc, hPc⟩
  | Conf recv config =>
    obtain ⟨l, -, hl, rfl⟩ := Conf_frame w w1 recv config h
    cases config with
    | none => exact absurd hop (by simp [Op.confOk])
    | some c1 =>
      by_cases hlp : l = p
      · subst hlp
        exact ⟨honce, l, c1, hp, by simp [hl], hop⟩
      · exact ⟨honce, p, c, hp, by simp [List.getElem?_set_ne hlp, hc], hPc⟩
  | New recv filePath serviceName =>
    simp only [Op.step, Option.map_eq_some', Prod.exists, exists_and_right, exists_eq_right] at h
    obtain ⟨z, hz⟩ := h
    obtain ⟨k, rfl⟩ := New_frame w w1 recv filePath serviceName z hz
    exact ⟨honce, p, c, hp, hc, hPc⟩
  | NewCustom recv filePath level maxSize maxBackups maxAge compress serviceName =>
    simp only [Op.step, NewCustom_eq, Option.map_some', Option.some.injEq] at h
    subst h
    exact ⟨honce, p, c, hp, hc, hPc⟩

theorem policyInv_run (P : Config → Prop) (LogPath : String) (ops : List Op) :
    ∀ w w1 : World, w.policyInv P → (∀ op ∈ ops, op.confOk P) →
      Op.run LogPath w ops = some w1 → w1.policyInv P := by
  induction ops with
  | nil =>
    intro w w1 hinv _ h
    simp only [Op.run, Option.some.injEq] at h
    exact h ▸ hinv
  | cons op ops ih =>
    intro w w1 hinv hops h
    simp only [Op.run] at h
    split at h
    · exact absurd h (by simp)
    · rename_i w2 hw2
      exact ih w2 w1
        (policyInv_step P LogPath w w2 op hinv (hops op (List.mem_cons_self _ _)) hw2)
        (fun o ho => hops o (List.mem_cons_of_mem _ ho)) h

theorem policyInv_reach (P : Config → Prop) (LogPath : String) (w w1 : World) (ops : List Op)
    (hw : w.once = false) (hP : P (defaultConfig (w.logPath LogPath)))
    (hops : ∀ op ∈ ops, op.confOk P)
    (h : Op.run LogPath w (Op.GetLogInstance :: ops) = some w1) : w1.policyInv P := by
  simp only [Op.run, Op.step, GetLogInstance_first LogPath w hw, Option.map_some'] at h
  exact policyInv_run P LogPath ops _ w1 (policyInv_first P LogPath w hP) hops h

end log

/-! ## The claims -/

namespace log

/-- C1: in a process where the initialisation has not run, `N >= 1` calls of
`GetLogInstance` in a row all return the same non-nil `Logger` pointer, the
one the first call returned, and end in the state the first call alone
produced: the one `Logger` and the nine sinks allocated by the first call are
all that is ever allocated, the nine channel variables are those the first
call set, and one more call returns the same pointer and leaves the whole
state unchanged. -/
theorem C1_GetLogInstance_once (LogPath : String) (w : World) (N : Nat)
    (hw : w.once = false) (hN : 1 ≤ N) :
    ∃ p w1, GetLogInstance LogPath w = some (some p, w1) ∧
      GetLogInstance.calls LogPath N w = some (List.replicate N (some p), w1) ∧
      GetLogInstance LogPath w1 = some (some p, w1) ∧
      w1.loggers.length = w.loggers.length + 1 ∧
      w1.hooks.length = w.hooks.length + 9 := by
  obtain ⟨n, rfl⟩ : ∃ n, N = n + 1 := ⟨N - 1, by omega⟩
  refine ⟨w.loggers.length, { w.initialised LogPath with once := true },
    GetLogInstance_first LogPath w hw, ?_, ?_, ?_, ?_⟩
  · simp [GetLogInstance.calls, GetLogInstance_first LogPath w hw, calls_again,
      List.replicate_succ, World.initialised]
  · simp [GetLogInstance_again, World.initialised]
  · simp [World.initialised]
  · simp [World.initialised, wellKnown]

/-- Witness of C1: three calls from the state at process start, with no
environment variable set. -/
theorem C1_GetLogInstance_once_witness :
    (World.init []).once = false ∧ 1 ≤ 3 ∧
    ∃ p w1, GetLogInstance "LOG_PATH" (World.init []) = some (some p, w1) ∧
      GetLogInstance.calls "LOG_PATH" 3 (World.init []) = some (List.replicate 3 (some p), w1) ∧
      GetLogInstance "LOG_PATH" w1 = some (some p, w1) ∧
      w1.loggers.length = (World.init []).loggers.length + 1 ∧
      w1.hooks.length = (World.init []).hooks.length + 9 :=
  ⟨rfl, by decide, C1_GetLogInstance_once "LOG_PATH" (World.init []) 3 rfl (by decide)⟩

/-- C5: in a process where the initialisation has not run, `GetLogInstance`
returns, and for the base log directory `d` it read (the configured value, or
"./logs" when the variable is unset) it has allocated exactly nine sinks, one
for each of the names common, discovery, examples, rivet, server, bow, shunt,
trans, scheduled in this order, the sink for `n` having file name
`d ++ "/" ++ n ++ ".log"`; the nine channel variables hold, in the same order,
the loggers that write to these sinks, each with the field `serviceName = n`. -/
theorem C5_GetLogInstance_channels (LogPath : String) (w : World) (hw : w.once = false) :
    ∃ p w1, GetLogInstance LogPath w = some (p, w1) ∧
      w1.hooks = w.hooks ++
        ["common", "discovery", "examples", "rivet", "server", "bow", "shunt", "trans",
          "scheduled"].map (fun n =>
            { Filename := env.GetEnvDefault w.environ LogPath "./logs" ++ "/" ++ n ++ ".log"
              MaxSize := 128, MaxBackups := 30, MaxAge := 30, Compress := true }) ∧
      w1.channels =
        ["common", "discovery", "examples", "rivet", "server", "bow", "shunt", "trans",
          "scheduled"].enum.map (fun x =>
            zap.Logger.New
              ⟨zapcore.Encoder.NewJSONEncoder recordShape,
                [zapcore.Writer.osStdout, zapcore.Writer.hook (w.hooks.length + x.1)],
                zapcore.DebugLevel⟩
              [zap.LoggerOption.AddCaller, zap.LoggerOption.Development,
                zap.LoggerOption.Fields [⟨"serviceName", x.2⟩]]) ∧
      w1.channels.map w1.filesOf =
        ["common", "discovery", "examples", "rivet", "server", "bow", "shunt", "trans",
          "scheduled"].map (fun n =>
            [env.GetEnvDefault w.environ LogPath "./logs" ++ "/" ++ n ++ ".log"]) := by
  refine ⟨_, _, GetLogInstance_first LogPath w hw, ?_, ?_, ?_⟩
  · simp [World.initialised, wellKnown, channelSink, World.logPath]
  · simp [World.initialised, World.channels, channel, List.enum, List.enumFrom]
  · have h := files_initialised LogPath w
    simpa [wellKnown, World.logPath, World.filesOf, World.channels] using h

/-- Witness of C5: the first call in a process whose environment sets the log
directory to "/var/log/rivet". -/
theorem C5_GetLogInstance_channels_witness :
    (World.init [("LOG_PATH", "/var/log/rivet")]).once = false ∧
    ∃ p w1, GetLogInstance "LOG_PATH" (World.init [("LOG_PATH", "/var/log/rivet")]) =
        some (p, w1) ∧
      w1.channels.map w1.filesOf =
        ["common", "discovery", "examples", "rivet", "server", "bow", "shunt", "trans",
          "scheduled"].map (fun n => ["/var/log/rivet" ++ "/" ++ n ++ ".log"]) :=
  ⟨rfl,
    match C5_GetLogInstance_channels "LOG_PATH" (World.init [("LOG_PATH", "/var/log/rivet")])
      rfl with
    | ⟨p, w1, h1, _, _, h4⟩ => ⟨p, w1, h1, h4⟩⟩

/-- C6: in a process where the initialisation has not run, `GetLogInstance`
returns, and each of the nine channels it built writes to exactly one rotating
sink and one file; the nine sinks are pairwise different objects and the nine
file paths are pairwise different, whatever the base log directory. In
particular shunt and discovery share neither sink nor file. -/
theorem C6_channels_distinct (LogPath : String) (w : World) (hw : w.once = false) :
    ∃ p w1, GetLogInstance LogPath w = some (p, w1) ∧
      w1.channels.length = 9 ∧
      (∀ z ∈ w1.channels, (sinksOf z).length = 1 ∧ (w1.filesOf z).length = 1) ∧
      (w1.channels.map sinksOf).flatten.Nodup ∧
      (w1.channels.map w1.filesOf).flatten.Nodup ∧
      List.Disjoint (sinksOf w1.Shunt) (sinksOf w1.Discovery) ∧
      List.Disjoint (w1.filesOf w1.Shunt) (w1.filesOf w1.Discovery) := by
  have hsink := sinks_initialised LogPath w
  have hfile := files_initialised LogPath w
  have hnd := paths_nodup (w.logPath LogPath)
  refine ⟨_, _, GetLogInstance_first LogPath w hw, rfl, ?_, ?_, ?_, ?_, ?_⟩
  · intro z hz
    have hz1 : z ∈ (w.initialised LogPath).channels := hz
    have h1 : sinksOf z ∈ (w.initialised LogPath).channels.map sinksOf :=
      List.mem_map_of_mem _ hz1
    have h2 : (w.initialised LogPath).filesOf z ∈
        (w.initialised LogPath).channels.map (w.initialised LogPath).filesOf :=
      List.mem_map_of_mem _ hz1
    rw [hsink] at h1
    rw [hfile] at h2
    constructor
    · simp at h1
      rcases h1 with h | h | h | h | h | h | h | h | h <;> simp [h]
    · change ((w.initialised LogPath).filesOf z).length = 1
      simp [wellKnown] at h2
      rcases h2 with h | h | h | h | h | h | h | h | h <;> simp [h]
  · change ((w.initialised LogPath).channels.map sinksOf).flatten.Nodup
    rw [hsink]
    simp
  · change ((w.initialised LogPath).channels.map (w.initialised LogPath).filesOf).flatten.Nodup
    rw [hfile]
    simpa [wellKnown] using hnd
  · simp [World.initialised, sinksOf_channel]
  · change List.Disjoint ((w.initialised LogPath).filesOf (w.initialised LogPath).Shunt)
      ((w.initialised LogPath).filesOf (w.initialised LogPath).Discovery)
    have e1 : (w.initialised LogPath).filesOf (w.initialised LogPath).Shunt =
        [w.logPath LogPath ++ "/" ++ "shunt" ++ ".log"] :=
      filesOf_channel (w.initialised LogPath) (w.hooks.length + 6) zapcore.DebugLevel "shunt"
        (channelSink (w.logPath LogPath) "shunt") (getElem?_append_add _ _ 6)
    have e2 : (w.initialised LogPath).filesOf (w.initialised LogPath).Discovery =
        [w.logPath LogPath ++ "/" ++ "discovery" ++ ".log"] :=
      filesOf_channel (w.initialised LogPath) (w.hooks.length + 1) zapcore.DebugLevel "discovery"
        (channelSink (w.logPath LogPath) "discovery") (getElem?_append_add _ _ 1)
    rw [e1, e2]
    intro x hx hy
    rw [List.mem_singleton] at hx hy
    exact absurd (path_inj (w.logPath LogPath) "shunt" "discovery" (hx.symm.trans hy))
      (by decide)

/-- Witness of C6: the first call in a process with no environment variable set. -/
theorem C6_channels_distinct_witness :
    (World.init []).once = false ∧
    ∃ p w1, GetLogInstance "LOG_PATH" (World.init []) = some (p, w1) ∧
      w1.channels.length = 9 ∧
      (∀ z ∈ w1.channels, (sinksOf z).length = 1 ∧ (w1.filesOf z).length = 1) ∧
      (w1.channels.map sinksOf).flatten.Nodup ∧
      (w1.channels.map w1.filesOf).flatten.Nodup ∧
      List.Disjoint (sinksOf w1.Shunt) (sinksOf w1.Discovery) ∧
      List.Disjoint (w1.filesOf w1.Shunt) (w1.filesOf w1.Discovery) :=
  ⟨rfl, C6_channels_distinct "LOG_PATH" (World.init []) rfl⟩

/-- C2: `Conf(c)` on an existing `Logger` returns and changes nothing but that
`Logger`'s `Config`, which becomes `c`: the sinks of every channel built before
and the nine channel variables are untouched. From then on, in every state in
which `c` is still the `Logger`'s config, `New` builds a channel with `c`'s
level whose new sink has `c`'s maxSize, maxBackups, maxAge and compress, and
`New` and `NewCustom` only append that one sink: the `Logger`s, the sinks
allocated earlier and the channel variables stay as they were. -/
theorem C2_Conf_frame (w : World) (l : Ptr) (c : Config) (hl : l < w.loggers.length) :
    ∃ w1, Logger.Conf w (some l) (some c) = some w1 ∧
      w1.hooks = w.hooks ∧ w1.channels = w.channels ∧
      w1.loggers = w.loggers.set l ⟨some c⟩ ∧
      w1.loggers[l]? = some ⟨some c⟩ ∧
      (∀ (w2 : World) (filePath serviceName : String), w2.loggers[l]? = some ⟨some c⟩ →
        ∃ w3, Logger.New w2 (some l) filePath serviceName =
            some (zap.Logger.New
              ⟨zapcore.Encoder.NewJSONEncoder recordShape,
                [zapcore.Writer.osStdout, zapcore.Writer.hook w2.hooks.length], c.Level⟩
              [zap.LoggerOption.AddCaller, zap.LoggerOption.Development,
                zap.LoggerOption.Fields [⟨"serviceName", serviceName⟩]], w3) ∧
          w3.hooks = w2.hooks ++
            [{ Filename := filePath, MaxSize := c.MaxSize, MaxBackups := c.MaxBackups,
               MaxAge := c.MaxAge, Compress := c.Compress }] ∧
          w3.loggers = w2.loggers ∧ w3.channels = w2.channels) ∧
      (∀ (w2 : World) (recv : Option Ptr) (filePath : String) (level : zapcore.Level)
          (maxSize maxBackups maxAge : Int) (compress : Bool) (serviceName : String),
        ∃ z w3, Logger.NewCustom w2 recv filePath level maxSize maxBackups maxAge compress
            serviceName = some (z, w3) ∧
          (∃ k, w3.hooks = w2.hooks ++ [k]) ∧
          w3.loggers = w2.loggers ∧ w3.channels = w2.channels) := by
  have hget : w.loggers[l]? = some w.loggers[l] := List.getElem?_eq_getElem hl
  refine ⟨{ w with loggers := w.loggers.set l ⟨some c⟩ }, ?_, rfl, rfl, rfl, ?_, ?_, ?_⟩
  · simp [Logger.Conf, hget]
  · simp [hl]
  · intro w2 filePath serviceName h2
    exact ⟨_, New_eq w2 l c filePath serviceName h2, rfl, rfl, rfl⟩
  · intro w2 recv filePath level maxSize maxBackups maxAge compress serviceName
    exact ⟨_, _, NewCustom_eq w2 recv filePath level maxSize maxBackups maxAge compress
      serviceName, ⟨_, rfl⟩, rfl, rfl⟩

/-- Witness of C2: `Conf` with the 1 MB policy on the registry after the first
`GetLogInstance()`; the nine sinks and channel variables are kept, and the next
`New` builds a sink with the 1 MB policy. -/
theorem C2_Conf_frame_witness :
    1 < World.started.loggers.length ∧
    ∃ w1, Logger.Conf World.started (some 1) (some Config.small) = some w1 ∧
      w1.hooks = World.started.hooks ∧ w1.channels = World.started.channels ∧
      ∃ z w3, Logger.New w1 (some 1) "./logs/pay.log" "pay" = some (z, w3) ∧
        w3.hooks = w1.hooks ++
          [{ Filename := "./logs/pay.log", MaxSize := 1, MaxBackups := 2, MaxAge := 0,
             Compress := false }] :=
  ⟨by decide,
    match C2_Conf_frame World.started 1 Config.small (by decide) with
    | ⟨w1, h1, h2, h3, _, h5, h6, _⟩ =>
      match h6 w1 "./logs/pay.log" "pay" h5 with
      | ⟨w3, k1, k2, _, _⟩ => ⟨w1, h1, h2, h3, _, w3, k1, k2⟩⟩

/-- C3 as stated fails: `NewCustom` with `maxSize = 0` on the registry returns a
logger, whose sink has `MaxSize = 0`; so it is not true that construction
fails exactly when `maxSize <= 0`. -/
theorem C3_counterexample :
    Logger.NewCustom World.started (some 1) "./logs/pay.log" zapcore.InfoLevel 0 2 0 false "pay" =
      some (channel 9 zapcore.InfoLevel "pay",
        { World.started with hooks := World.started.hooks ++
            [{ Filename := "./logs/pay.log", MaxSize := 0, MaxBackups := 2, MaxAge := 0,
               Compress := false }] }) ∧
    ¬ ∀ (w : World) (recv : Option Ptr) (filePath : String) (level : zapcore.Level)
        (maxSize maxBackups maxAge : Int) (compress : Bool) (serviceName : String),
        Logger.NewCustom w recv filePath level maxSize maxBackups maxAge compress serviceName = none
          ↔ maxSize ≤ 0 := by
  refine ⟨by decide, fun h => ?_⟩
  have h1 := (h World.started (some 1) "./logs/pay.log" zapcore.InfoLevel 0 2 0 false "pay").2
    (le_refl 0)
  simp [NewCustom_eq] at h1

/-- C3 amended: `NewCustom` never fails, whatever `maxSize` is: it returns a
logger that writes to one new sink, and that sink is created with exactly the
file path, `maxSize`, `maxBackups`, `maxAge` and `compress` passed, unchecked. -/
theorem C3_NewCustom_unchecked (w : World) (recv : Option Ptr) (filePath : String)
    (level : zapcore.Level) (maxSize maxBackups maxAge : Int) (compress : Bool)
    (serviceName : String) :
    ∃ z w1, Logger.NewCustom w recv filePath level maxSize maxBackups maxAge compress
        serviceName = some (z, w1) ∧
      sinksOf z = [w.hooks.length] ∧
      w1.hooks = w.hooks ++
        [{ Filename := filePath, MaxSize := maxSize, MaxBackups := maxBackups,
           MaxAge := maxAge, Compress := compress }] :=
  ⟨_, _, NewCustom_eq w recv filePath level maxSize maxBackups maxAge compress serviceName,
    sinksOf_channel _ _ _, rfl⟩

/-- C4 as stated fails: after `GetLogInstance()` and `Conf` with a config whose
`MaxSize` is 0, the registry's default policy has `MaxSize = 0`. -/
theorem C4_counterexample :
    ((Op.run "LOG_PATH" (World.init [])
        [Op.GetLogInstance,
         Op.Conf (some 1) (some ⟨"./logs/rivet.log", zapcore.DebugLevel, 0, 30, 30, true⟩)]).bind
      World.defaultPolicy).map Config.MaxSize = some 0 ∧
    ¬ ∀ (ops : List Op) (w1 : World),
        Op.run "LOG_PATH" (World.init []) (Op.GetLogInstance :: ops) = some w1 →
        ∃ c, w1.defaultPolicy = some c ∧ 0 < c.MaxSize := by
  have e : Op.run "LOG_PATH" (World.init [])
      [Op.GetLogInstance,
       Op.Conf (some 1) (some ⟨"./logs/rivet.log", zapcore.DebugLevel, 0, 30, 30, true⟩)] =
      some { World.started with loggers :=
        [⟨none⟩, ⟨some ⟨"./logs/rivet.log", zapcore.DebugLevel, 0, 30, 30, true⟩⟩] } := by
    decide
  refine ⟨by rw [e]; decide, fun h => ?_⟩
  obtain ⟨c, hc, hpos⟩ := h _ _ e
  have hc0 : c = ⟨"./logs/rivet.log", zapcore.DebugLevel, 0, 30, 30, true⟩ := by
    have : World.defaultPolicy { World.started with loggers :=
        [⟨none⟩, ⟨some ⟨"./logs/rivet.log", zapcore.DebugLevel, 0, 30, 30, true⟩⟩] } =
        some ⟨"./logs/rivet.log", zapcore.DebugLevel, 0, 30, 30, true⟩ := by decide
    rw [this] at hc
    exact (Option.some.inj hc).symm
  rw [hc0] at hpos
  exact absurd hpos (by decide)

/-- C4 amended: in every state reached from the first `GetLogInstance` call by
calls of `GetLogInstance`, `New`, `NewCustom` and of `Conf` with a non-nil
config whose `MaxSize` is positive, the registry's default policy exists and
has `MaxSize > 0`. -/
theorem C4_policy_positive (LogPath : String) (w w1 : World) (ops : List Op)
    (hw : w.once = false)
    (hops : ∀ op ∈ ops, op.confOk (fun c => 0 < c.MaxSize))
    (hrun : Op.run LogPath w (Op.GetLogInstance :: ops) = some w1) :
    ∃ c, w1.defaultPolicy = some c ∧ 0 < c.MaxSize := by
  obtain ⟨-, p, c, hp, hc, hpos⟩ :=
    policyInv_reach (fun c => 0 < c.MaxSize) LogPath w w1 ops hw
      (show (0 : Int) < 128 by decide) hops hrun
  exact ⟨c, by simp [World.defaultPolicy, hp, hc], hpos⟩

/-- Witness of C4 amended: after the first `GetLogInstance()`, a `Conf` with
the 1 MB policy, a `New`, a `NewCustom` with `maxSize = 0` and another
`GetLogInstance()`. -/
theorem C4_policy_positive_witness :
    (World.init []).once = false ∧
    (∀ op ∈ [Op.Conf (some 1) (some Config.small), Op.New (some 1) "./logs/pay.log" "pay",
        Op.NewCustom (some 1) "./logs/tmp.log" zapcore.InfoLevel 0 0 0 false "tmp",
        Op.GetLogInstance], Op.confOk (fun c => 0 < c.MaxSize) op) ∧
    ∃ w1, Op.run "LOG_PATH" (World.init [])
        [Op.GetLogInstance, Op.Conf (some 1) (some Config.small),
          Op.New (some 1) "./logs/pay.log" "pay",
          Op.NewCustom (some 1) "./logs/tmp.log" zapcore.InfoLevel 0 0 0 false "tmp",
          Op.GetLogInstance] = some w1 ∧
      ∃ c, w1.defaultPolicy = some c ∧ 0 < c.MaxSize := by
  have hops : ∀ op ∈ [Op.Conf (some 1) (some Config.small),
      Op.New (some 1) "./logs/pay.log" "pay",
      Op.NewCustom (some 1) "./logs/tmp.log" zapcore.InfoLevel 0 0 0 false "tmp",
      Op.GetLogInstance], Op.confOk (fun c => 0 < c.MaxSize) op := by
    simp [Op.confOk, Config.small]
  obtain ⟨w1, h⟩ := Option.isSome_iff_exists.mp
    (show (Op.run "LOG_PATH" (World.init [])
      [Op.GetLogInstance, Op.Conf (some 1) (some Config.small),
        Op.New (some 1) "./logs/pay.log" "pay",
        Op.NewCustom (some 1) "./logs/tmp.log" zapcore.InfoLevel 0 0 0 false "tmp",
        Op.GetLogInstance]).isSome = true by decide)
  exact ⟨rfl, hops, w1, h, C4_policy_positive "LOG_PATH" (World.init []) w1 _ rfl hops h⟩

/-- C7: for a `Logger` whose default policy is `p`, `New(filePath, serviceName)`
is `NewCustom(filePath, p.Level, p.MaxSize, p.MaxBackups, p.MaxAge, p.Compress,
serviceName)`: same logger, same resulting state. `NewCustom` puts each
parameter it is given, unchanged, into the level of the core and into the new
sink, and its logger and sink do not depend on the receiver or on any
`Logger`'s default policy. -/
theorem C7_New_is_NewCustom (w : World) (l : Ptr) (p : Config) (filePath serviceName : String)
    (h : w.loggers[l]? = some ⟨some p⟩) :
    Logger.New w (some l) filePath serviceName =
        Logger.NewCustom w (some l) filePath p.Level p.MaxSize p.MaxBackups p.MaxAge p.Compress
          serviceName ∧
      (∀ (recv : Option Ptr) (level : zapcore.Level) (maxSize maxBackups maxAge : Int)
          (compress : Bool),
        Logger.NewCustom w recv filePath level maxSize maxBackups maxAge compress serviceName =
          some (zap.Logger.New
              ⟨zapcore.Encoder.NewJSONEncoder recordShape,
                [zapcore.Writer.osStdout, zapcore.Writer.hook w.hooks.length], level⟩
              [zap.LoggerOption.AddCaller, zap.LoggerOption.Development,
                zap.LoggerOption.Fields [⟨"serviceName", serviceName⟩]],
            { w with hooks := w.hooks ++
                [{ Filename := filePath, MaxSize := maxSize, MaxBackups := maxBackups,
                   MaxAge := maxAge, Compress := compress }] })) ∧
      (∀ (recv recv1 : Option Ptr) (loggers1 : List Logger) (level : zapcore.Level)
          (maxSize maxBackups maxAge : Int) (compress : Bool),
        (Logger.NewCustom { w with loggers := loggers1 } recv1 filePath level maxSize maxBackups
            maxAge compress serviceName).map (fun r => (r.1, r.2.hooks)) =
          (Logger.NewCustom w recv filePath level maxSize maxBackups maxAge compress
            serviceName).map (fun r => (r.1, r.2.hooks))) := by
  refine ⟨?_, ?_, ?_⟩
  · rw [New_eq w l p filePath serviceName h, NewCustom_eq]
  · intro recv level maxSize maxBackups maxAge compress
    rw [NewCustom_eq]
    rfl
  · intro recv recv1 loggers1 level maxSize maxBackups maxAge compress
    simp [NewCustom_eq]

/-- Witness of C7: the registry after the first `GetLogInstance()`, whose
default policy is the one installed for "./logs". -/
theorem C7_New_is_NewCustom_witness :
    World.started.loggers[1]? = some ⟨some (defaultConfig "./logs")⟩ ∧
    Logger.New World.started (some 1) "./logs/pay.log" "pay" =
      Logger.NewCustom World.started (some 1) "./logs/pay.log" zapcore.DebugLevel 128 30 30 true
        "pay" :=
  ⟨by decide,
    (C7_New_is_NewCustom World.started 1 (defaultConfig "./logs") "./logs/pay.log" "pay"
      (by decide)).1⟩

/-- C8: the timestamps are not UTC. At 10:00:00 local time on 2019-08-01 in a
process whose zone is eight hours east of UTC, `Info("hello")` on the channel
`New("./logs/pay.log", "pay")` of the registry, called from
`/go/src/app/main.go:42`, writes a record whose `time` is the local wall clock
with the offset `+0800`, not the UTC time `2019-08-01T02:00:00.000Z`; its zone
designator is not `Z`. The rest of the record is as claimed: lowercase level,
full caller path, the message and `serviceName = pay` (a logger name and a stack
trace are not written, there being none). Only a time whose location is UTC is
written with `Z`. -/
theorem C8_time_not_UTC :
    ∃ core opts w1,
      Logger.New World.started (some 1) "./logs/pay.log" "pay" =
        some (zap.Logger.New core opts, w1) ∧
      zap.write core opts zapcore.InfoLevel "hello" []
          ⟨2019, 8, 1, 10, 0, 0, 0, 28800⟩ ⟨true, "/go/src/app/main.go", 42⟩ "" =
        some [("level", "info"), ("time", "2019-08-01T10:00:00.000+0800"),
          ("caller", "/go/src/app/main.go:42"), ("msg", "hello"), ("serviceName", "pay")] ∧
      "2019-08-01T10:00:00.000+0800".data.getLast? ≠ some 'Z' ∧
      zap.write core opts zapcore.InfoLevel "hello" []
          ⟨2019, 8, 1, 2, 0, 0, 0, 0⟩ ⟨true, "/go/src/app/main.go", 42⟩ "" =
        some [("level", "info"), ("time", "2019-08-01T02:00:00.000Z"),
          ("caller", "/go/src/app/main.go:42"), ("msg", "hello"), ("serviceName", "pay")] :=
  ⟨_, _, _, New_eq World.started 1 (defaultConfig "./logs") "./logs/pay.log" "pay" (by decide),
    by decide, by decide, by decide⟩

/-- C10: (1) on an existing `Logger`, `New` returns a logger exactly when the
`Logger`'s `Config` is non-nil; on the package variable `Log` at process start
(nil `Config`) it panics. (2) In every state reached from the first
`GetLogInstance` call by calls of `GetLogInstance`, `New`, `NewCustom` and of
`Conf` with a non-nil config, `GetLogInstance` returns a non-nil `Logger` whose
`Config` is non-nil, and `New` on it returns a logger for every file path and
service name. (3) `NewCustom` returns a logger in every state for every
receiver, a nil one and one with a nil `Config` included. -/
theorem C10_New_needs_Config :
    (∀ (w : World) (l : Ptr) (L : Logger) (filePath serviceName : String),
      w.loggers[l]? = some L →
      ((Logger.New w (some l) filePath serviceName).isSome = true ↔ L.Config ≠ none)) ∧
    (∀ (e : env.Environ) (filePath serviceName : String),
      Logger.New (World.init e) (some LogAddr) filePath serviceName = none) ∧
    (∀ (LogPath : String) (w w1 : World) (ops : List Op),
      w.once = false →
      (∀ op ∈ ops, op.confOk (fun _ => True)) →
      Op.run LogPath w (Op.GetLogInstance :: ops) = some w1 →
      ∃ p c, GetLogInstance LogPath w1 = some (some p, w1) ∧
        w1.loggers[p]? = some ⟨some c⟩ ∧
        ∀ filePath serviceName : String,
          (Logger.New w1 (some p) filePath serviceName).isSome = true) ∧
    (∀ (w : World) (recv : Option Ptr) (filePath : String) (level : zapcore.Level)
        (maxSize maxBackups maxAge : Int) (compress : Bool) (serviceName : String),
      (Logger.NewCustom w recv filePath level maxSize maxBackups maxAge compress
        serviceName).isSome = true) := by
  refine ⟨?_, ?_, ?_, ?_⟩
  · intro w l L filePath serviceName hL
    cases hc : L.Config with
    | none => simp [Logger.New, hL, hc]
    | some c =>
      have hL1 : w.loggers[l]? = some ⟨some c⟩ := by rw [hL, ← hc]
      simp [New_eq w l c filePath serviceName hL1]
  · intro e filePath serviceName
    simp [Logger.New, World.init, LogAddr]
  · intro LogPath w w1 ops hw hops hrun
    obtain ⟨honce, p, c, hp, hc, -⟩ :=
      policyInv_reach (fun _ => True) LogPath w w1 ops hw trivial hops hrun
    refine ⟨p, c, ?_, hc, ?_⟩
    · rw [GetLogInstance_again LogPath w1 honce, hp]
    · intro filePath serviceName
      simp [New_eq w1 p c filePath serviceName hc]
  · intro w recv filePath level maxSize maxBackups maxAge compress serviceName
    simp [NewCustom_eq]

/-- Witness of C10: after the first `GetLogInstance()` and two `Conf` calls with
non-nil configs, `GetLogInstance()` returns a `Logger` with a non-nil `Config`
on which `New` returns a logger. -/
theorem C10_New_needs_Config_witness :
    ∃ w1, Op.run "LOG_PATH" (World.init [])
        [Op.GetLogInstance, Op.Conf (some 1) (some Config.small),
          Op.Conf (some 1) (some (defaultConfig "/tmp"))] = some w1 ∧
      ∃ p c, GetLogInstance "LOG_PATH" w1 = some (some p, w1) ∧
        w1.loggers[p]? = some ⟨some c⟩ ∧
        ∀ filePath serviceName : String,
          (Logger.New w1 (some p) filePath serviceName).isSome = true := by
  obtain ⟨w1, h⟩ := Option.isSome_iff_exists.mp
    (show (Op.run "LOG_PATH" (World.init [])
      [Op.GetLogInstance, Op.Conf (some 1) (some Config.small),
        Op.Conf (some 1) (some (defaultConfig "/tmp"))]).isSome = true by decide)
  exact ⟨w1, h, C10_New_needs_Config.2.2.1 "LOG_PATH" (World.init []) w1 _ rfl
    (by simp [Op.confOk]) h⟩

end log
